import Mathlib

/-!
Shallow embedding of the backwards-pagination engine of a room event cache
(`event_cache/pagination.rs`), together with the gap-aware linked-chunk
storage it operates on.

The pagination control flow (`run_backwards_until`, `run_backwards_once`,
`run_backwards_impl`, `get_or_wait_for_token`, `PaginationToken`) is
translated directly from `pagination.rs`.  The linked-chunk structure
(`RoomEvents` and its operations) and the deduplicator are collaborators
whose sources are not part of the supplied tree; they are modelled from the
specification, as indicated in their doc comments.

Externally-determined data (the persistent store's answer to a backwards
load, the state snapshots observed at each lock acquisition, the network
response of the paginator) are passed as explicit parameters, making every
suspension point of the original async code an explicit input.
-/

abbrev Token := String

abbrev EventId := String

/-- An event: a unique identifier (possibly absent for malformed inputs) and
an origin-server timestamp. -/
structure Event where
  event_id : Option EventId
  origin_server_ts : Nat
  deriving DecidableEq, Repr

/-- A gap carrying the opaque continuation token the server handed out. -/
structure Gap where
  prev_token : Token
  deriving DecidableEq, Repr

/-- Content of a chunk: either a run of events (oldest first within the
chunk) or a gap. -/
inductive ChunkContent where
  | items (events : List Event)
  | gap (g : Gap)
  deriving DecidableEq, Repr

/-- A chunk with its stable identifier. -/
structure Chunk where
  id : Nat
  content : ChunkContent
  deriving DecidableEq, Repr

/-- Whether a chunk is a gap (`chunk.is_gap()`). -/
def Chunk.is_gap (c : Chunk) : Bool :=
  match c.content with
  | .gap _ => true
  | .items _ => false

/-- The predicate used by the reset-detection step of `run_backwards_impl`:
`matches!(chunk.content(), ChunkContent::Gap(Gap { prev_token }) if *prev_token == token)`. -/
def Chunk.is_gap_with_token (t : Token) (c : Chunk) : Bool :=
  match c.content with
  | .gap g => g.prev_token == t
  | .items _ => false

/-- A transient position of one event: the identifier of the chunk holding
it and the index inside that chunk. -/
structure Position where
  chunk_id : Nat
  index : Nat
  deriving DecidableEq, Repr

/-- Modelled from the spec: the gap-aware linked chunks (`LinkedChunks` /
`RoomEvents`), whose implementation is not part of the supplied sources.
`chunks` is ordered oldest to newest; `next_id` provides fresh stable chunk
identifiers; `head_has_predecessor` records that the oldest in-memory chunk
has a predecessor that is not loaded (the structure may be partially
loaded from the persistent store, see the spec's reached-start soundness:
"the oldest chunk has no predecessor"). -/
structure RoomEvents where
  chunks : List Chunk
  next_id : Nat
  head_has_predecessor : Bool
  deriving DecidableEq, Repr

/-- Modelled from the spec: `chunk_identifier(predicate)` — find the first
chunk matching a predicate, return its ChunkId or none. -/
def RoomEvents.chunk_identifier (ev : RoomEvents) (p : Chunk → Bool) : Option Nat :=
  (ev.chunks.find? p).map (·.id)

/-- Modelled from the spec: `rchunks()` — backward (newest to oldest) chunk
iteration. -/
def RoomEvents.rchunks (ev : RoomEvents) : List Chunk :=
  ev.chunks.reverse

/-- Modelled from the spec: `events()` — iteration over all events, oldest
first, with positions. -/
def RoomEvents.events (ev : RoomEvents) : List (Position × Event) :=
  ev.chunks.flatMap fun c =>
    match c.content with
    | .items es => es.enum.map fun ie => (⟨c.id, ie.1⟩, ie.2)
    | .gap _ => []

/-- Position of the first (oldest) event, when one exists:
`events().next().map(|(item_pos, _)| item_pos)`. -/
def RoomEvents.first_event_pos (ev : RoomEvents) : Option Position :=
  ev.events.head?.map (·.1)

/-- Whether at least one event exists: `events().next().is_some()`. -/
def RoomEvents.has_events (ev : RoomEvents) : Bool :=
  !ev.events.isEmpty

/-- All event identifiers present across the Items chunks. -/
def RoomEvents.all_event_ids (ev : RoomEvents) : List EventId :=
  ev.events.filterMap fun pe => pe.2.event_id

/-- Modelled from the spec: whether the oldest in-memory chunk is the
definitive head (`chunk.is_definitive_head()`): it has no predecessor,
neither in memory (it is the oldest) nor unloaded in the store. -/
def RoomEvents.oldest_is_definitive_head (ev : RoomEvents) : Bool :=
  !ev.head_has_predecessor

/-- Helper for `push_events`: append events to the newest Items chunk,
creating one (with a fresh id) if the tail is a Gap or the structure is
empty. Returns the new chunk list and the next fresh id. -/
def push_events_aux (chunks : List Chunk) (evs : List Event) (fresh : Nat) :
    List Chunk × Nat :=
  match chunks with
  | [] => ([⟨fresh, .items evs⟩], fresh + 1)
  | [c] =>
    match c.content with
    | .items es => ([⟨c.id, .items (es ++ evs)⟩], fresh)
    | .gap g => ([⟨c.id, .gap g⟩, ⟨fresh, .items evs⟩], fresh + 1)
  | c :: rest =>
    let r := push_events_aux rest evs fresh
    (c :: r.1, r.2)

/-- Modelled from the spec: `push_events(events)` — append events to the
newest Items chunk, creating one if the tail is a Gap or the structure is
empty; with no events it changes nothing. -/
def RoomEvents.push_events (ev : RoomEvents) (evs : List Event) : RoomEvents :=
  if evs.isEmpty then ev
  else
    let r := push_events_aux ev.chunks evs ev.next_id
    { ev with chunks := r.1, next_id := r.2 }

/-- Modelled from the spec: `push_gap(gap)` — append a Gap at the tail.
(The spec's precondition — the tail must not already be a Gap — holds at
every use inside the pagination engine.) -/
def RoomEvents.push_gap (ev : RoomEvents) (g : Gap) : RoomEvents :=
  { ev with
    chunks := ev.chunks ++ [⟨ev.next_id, .gap g⟩],
    next_id := ev.next_id + 1 }

/-- Modelled from the spec: `insert_events_at(events, pos)` — insert events
immediately before `pos`. A `pos` that does not point into an Items chunk
is a precondition violation; the structure is then left unchanged. -/
def RoomEvents.insert_events_at (ev : RoomEvents) (evs : List Event) (pos : Position) :
    RoomEvents :=
  { ev with
    chunks := ev.chunks.map fun c =>
      if c.id == pos.chunk_id then
        match c.content with
        | .items es => ⟨c.id, .items (es.take pos.index ++ evs ++ es.drop pos.index)⟩
        | .gap g => ⟨c.id, .gap g⟩
      else c }

/-- Helper for `insert_gap_at`: insert a gap chunk (fresh id) immediately
before the event position `pos`, splitting the Items chunk when the
position is interior. -/
def insert_gap_at_aux (chunks : List Chunk) (g : Gap) (pos : Position) (fresh : Nat) :
    List Chunk × Nat :=
  match chunks with
  | [] => ([], fresh)
  | c :: rest =>
    if c.id == pos.chunk_id then
      if pos.index == 0 then
        (⟨fresh, .gap g⟩ :: c :: rest, fresh + 1)
      else
        match c.content with
        | .items es =>
          (⟨c.id, .items (es.take pos.index)⟩ :: ⟨fresh, .gap g⟩ ::
             ⟨fresh + 1, .items (es.drop pos.index)⟩ :: rest, fresh + 2)
        | .gap g0 => (⟨c.id, .gap g0⟩ :: rest, fresh)
    else
      let r := insert_gap_at_aux rest g pos fresh
      (c :: r.1, r.2)

/-- Modelled from the spec: `insert_gap_at(gap, pos)` — insert a Gap
immediately before `pos`. -/
def RoomEvents.insert_gap_at (ev : RoomEvents) (g : Gap) (pos : Position) : RoomEvents :=
  let r := insert_gap_at_aux ev.chunks g pos ev.next_id
  { ev with chunks := r.1, next_id := r.2 }

/-- Helper for `remove_gap_at`: remove the chunk carrying identifier `gid`,
returning the position of the first event of the following chunk (the next
insert position), when there is one. -/
def remove_gap_at_aux (chunks : List Chunk) (gid : Nat) : List Chunk × Option Position :=
  match chunks with
  | [] => ([], none)
  | c :: rest =>
    if c.id == gid then
      (rest,
        match rest.head? with
        | some c2 =>
          match c2.content with
          | .items (_ :: _) => some ⟨c2.id, 0⟩
          | _ => none
        | none => none)
    else
      let r := remove_gap_at_aux rest gid
      (c :: r.1, r.2)

/-- Modelled from the spec: `remove_gap_at(gap_id)` — remove the identified
gap. -/
def RoomEvents.remove_gap_at (ev : RoomEvents) (gid : Nat) : RoomEvents × Option Position :=
  let r := remove_gap_at_aux ev.chunks gid
  ({ ev with chunks := r.1 }, r.2)

/-- Helper for `replace_gap_at`: replace the chunk carrying identifier `gid`
by a fresh Items chunk holding `evs` (or just remove it when `evs` is
empty), returning the position of the first inserted event. -/
def replace_gap_at_aux (chunks : List Chunk) (evs : List Event) (gid : Nat) (fresh : Nat) :
    List Chunk × Option Position × Nat :=
  match chunks with
  | [] => ([], none, fresh)
  | c :: rest =>
    if c.id == gid then
      if evs.isEmpty then (rest, none, fresh)
      else (⟨fresh, .items evs⟩ :: rest, some ⟨fresh, 0⟩, fresh + 1)
    else
      let r := replace_gap_at_aux rest evs gid fresh
      (c :: r.1, r.2.1, r.2.2)

/-- Modelled from the spec: `replace_gap_at(events, gap_id)` — atomically
remove the gap identified by `gap_id` and splice `events` in its place,
returning the position where the inserted events start. -/
def RoomEvents.replace_gap_at (ev : RoomEvents) (evs : List Event) (gid : Nat) :
    RoomEvents × Option Position :=
  let r := replace_gap_at_aux ev.chunks evs gid ev.next_id
  ({ ev with chunks := r.1, next_id := r.2.2 }, r.2.1)

/-- The writer-serialised per-room state: the linked chunks and the one-shot
"have we ever waited for the initial sync token" flag. -/
structure RoomState where
  events : RoomEvents
  waited_for_initial_prev_token : Bool
  deriving DecidableEq, Repr

/-- Pagination token data, indicating in which state is the current
pagination (`PaginationToken` in `pagination.rs`). -/
inductive PaginationToken where
  | none
  | hasMore (token : Token)
  | hitEnd
  deriving DecidableEq, Repr

/-- The local helper of `get_or_wait_for_token`: walk chunks newest to
oldest; the first Gap encountered yields its token. -/
def get_latest (events : RoomEvents) : Option Token :=
  events.rchunks.findSome? fun chunk =>
    match chunk.content with
    | .gap g => some g.prev_token
    | .items _ => none

/-- Translation of `get_or_wait_for_token`.  The notifier wait releases the
state lock, so the state observed after the wait is an explicit parameter
`st_after_wait` (concurrent writers may have changed it).  The result is
the returned token, the final room state, and whether the call actually
waited on the notifier. -/
def get_or_wait_for_token (pag : RoomState) (wait_time : Option Nat)
    (st_after_wait : RoomState) : PaginationToken × RoomState × Bool :=
  let has_events := pag.events.has_events
  match get_latest pag.events with
  | some found => (.hasMore found, pag, false)
  | Option.none =>
    if has_events then (.hitEnd, pag, false)
    else if pag.waited_for_initial_prev_token then (.none, pag, false)
    else
      match wait_time with
      | Option.none => (.none, pag, false)
      | some _ =>
        let st : RoomState := { st_after_wait with waited_for_initial_prev_token := true }
        (match get_latest st.events with
         | some token => .hasMore token
         | Option.none => if st.events.has_events then .hitEnd else .none,
         st, true)

/-- Result of one successful network round-trip of the paginator
(`PaginationResult`). -/
structure PaginationResult where
  events : List Event
  hit_end_of_timeline : Bool
  deriving DecidableEq, Repr

/-- The externally-determined data of the network step of one attempt: the
paginator's response to `paginate_backward` (a transport error or a
result), the previous-batch token the paginator holds after the call
(`paginator.prev_batch_token()`), and the event ids known to the
persistent store (consulted by the deduplicator). -/
structure PaginatorEnv where
  response : Except String PaginationResult
  prev_batch_token : Option Token
  store_ids : List EventId
  deriving Repr

/-- Modelled from the spec: the output of the deduplicator. Only the event
ids of the duplicate buckets are consumed by `run_backwards_impl`, so the
positions the implementation pairs them with are omitted. -/
structure DeduplicationOutcome where
  all_events : List Event
  in_memory_duplicated_event_ids : List EventId
  in_store_duplicated_event_ids : List EventId
  deriving DecidableEq, Repr

/-- Modelled from the spec: `collect_valid_and_duplicated_events` (the
deduplicator and the room-state wrapper around it are not part of the
supplied sources).  Events with no id are dropped silently; the remaining
candidates are partitioned against the in-memory event-id index and the
persistent store, with disjoint buckets and candidate order preserved; the
derived flag is true iff every valid candidate was already known. -/
def collect_valid_and_duplicated_events (ev : RoomEvents) (store_ids : List EventId)
    (candidates : List Event) : DeduplicationOutcome × Bool :=
  let valid := candidates.filter fun e => e.event_id.isSome
  let mem_ids := ev.all_event_ids
  let in_mem := valid.filterMap fun e =>
    e.event_id.bind fun i => if mem_ids.contains i then some i else Option.none
  let in_store := valid.filterMap fun e =>
    e.event_id.bind fun i =>
      if !mem_ids.contains i && store_ids.contains i then some i else Option.none
  let all_duplicates := valid.length == in_mem.length + in_store.length
  (⟨valid, in_mem, in_store⟩, all_duplicates)

/-- The kept events of one network attempt, after the dedup step of
`run_backwards_impl`: when not everything was a duplicate, retain the
events that carry an id that is in neither duplicate bucket; when all
events were duplicates, clear the list. -/
def kept_events (ev : RoomEvents) (store_ids : List EventId) (batch : List Event) :
    List Event :=
  let d := collect_valid_and_duplicated_events ev store_ids batch
  if !d.2 then
    d.1.all_events.filter fun e =>
      match e.event_id with
      | some i =>
        !((d.1.in_memory_duplicated_event_ids ++ d.1.in_store_duplicated_event_ids).contains i)
      | Option.none => false
  else []

/-- Outcome of one back-pagination attempt (`BackPaginationOutcome`):
events in newest-first order, and whether the start of the timeline was
reached. -/
structure BackPaginationOutcome where
  events : List Event
  reached_start : Bool
  deriving DecidableEq, Repr

/-- The reached-start reconciliation at the end of `run_backwards_impl`:
there must be no gap anywhere, and, when the linked chunk has a first
chunk, that chunk must be the definitive head (the network's own flag is
used only when there is no chunk at all). -/
def reconcile_reached_start (ev : RoomEvents) (network_reached_start : Bool) : Bool :=
  (!ev.chunks.any fun c => c.is_gap) &&
  (match ev.chunks.head? with
   | Option.none => network_reached_start
   | some _ => ev.oldest_is_definitive_head)

/-- The splice step of `run_backwards_impl` (the body of
`with_events_mut`), minus the gap insertion: insert the kept events
(already reversed to chronological order) at the chosen site, returning
the updated structure and the position where a new gap would go. -/
def splice_events (ev : RoomEvents) (gap_id : Option Nat) (all_duplicates : Bool)
    (reversed_events : List Event) : RoomEvents × Option Position :=
  match gap_id with
  | some gid =>
    if all_duplicates then ev.remove_gap_at gid
    else ev.replace_gap_at reversed_events gid
  | Option.none =>
    match ev.first_event_pos with
    | some pos => (ev.insert_events_at reversed_events pos, some pos)
    | Option.none =>
      let ev2 := ev.push_events reversed_events
      (ev2, ev2.first_event_pos)

/-- The new-gap step of `run_backwards_impl`: when at least one
non-duplicated event was added and the paginator produced a new
previous-batch token, insert the new gap at the captured position, or push
it at the tail when no position was captured. -/
def maybe_insert_new_gap (all_duplicates : Bool) (new_gap : Option Gap)
    (pos : Option Position) (ev : RoomEvents) : RoomEvents :=
  if !all_duplicates then
    match new_gap with
    | some g =>
      match pos with
      | some p => ev.insert_gap_at g p
      | Option.none => ev.push_gap g
    | Option.none => ev
  else ev

/-- The network path of `run_backwards_impl` (everything after the token
has been resolved): run the paginator, re-acquire the writer lock (whose
state snapshot is `state`), detect a concurrent reset, dedup, splice,
store the new gap, reconcile reached-start.  The first component is the
propagated transport error, or `none` for "retry" (reset detected), or the
produced outcome; the second component is the room state afterwards. -/
def network_pagination (prev_token : Option Token) (net : PaginatorEnv)
    (state : RoomState) : Except String (Option BackPaginationOutcome) × RoomState :=
  match net.response with
  | .error e => (.error e, state)
  | .ok pr =>
    let gap_check : Option (Option Nat) :=
      match prev_token with
      | some token =>
        match state.events.chunk_identifier (Chunk.is_gap_with_token token) with
        | Option.none => Option.none
        | some gid => some (some gid)
      | Option.none => some Option.none
    match gap_check with
    | Option.none => (.ok Option.none, state)
    | some gap_id =>
      let new_gap := net.prev_batch_token.map Gap.mk
      let all_duplicates :=
        (collect_valid_and_duplicated_events state.events net.store_ids pr.events).2
      let events := kept_events state.events net.store_ids pr.events
      let reversed_events := events.reverse
      let spliced := splice_events state.events gap_id all_duplicates reversed_events
      let ev2 := maybe_insert_new_gap all_duplicates new_gap spliced.2 spliced.1
      let reached_start := reconcile_reached_start ev2 pr.hit_end_of_timeline
      (.ok (some ⟨events, reached_start⟩), { state with events := ev2 })

/-- Result of the local fast-path store load
(`LoadMoreEventsBackwardsOutcome`); the diffs broadcast on the update bus
are not modelled. -/
inductive LoadMoreEventsBackwardsOutcome where
  | gap
  | startOfTimeline
  | events (events : List Event) (reached_start : Bool)
  deriving Repr

/-- The externally-determined data of one `run_backwards_impl` attempt: the
store's answer to the local fast-path load, the room-state snapshots
observed at each lock acquisition (the lock is released between steps, so
concurrent writers may change the state in between), and the network
environment. -/
structure AttemptEnv where
  load : LoadMoreEventsBackwardsOutcome
  st_after_load : RoomState
  st_at_token : RoomState
  st_after_wait : RoomState
  net : PaginatorEnv
  st_at_splice : RoomState
  deriving Repr

/-- The default token wait used by `run_backwards_impl`, in milliseconds. -/
def DEFAULT_WAIT_FOR_TOKEN_DURATION : Nat := 3000

/-- Translation of `run_backwards_impl`: local fast-path first, then token
acquisition, then the network path.  Returns the attempt result (error /
retry / outcome) and the room state as last observed by the attempt. -/
def run_backwards_impl (env : AttemptEnv) :
    Except String (Option BackPaginationOutcome) × RoomState :=
  match env.load with
  | .startOfTimeline => (.ok (some ⟨[], true⟩), env.st_after_load)
  | .events evs reached => (.ok (some ⟨evs.reverse, reached⟩), env.st_after_load)
  | .gap =>
    let r := get_or_wait_for_token env.st_at_token
      (some DEFAULT_WAIT_FOR_TOKEN_DURATION) env.st_after_wait
    match r.1 with
    | .hitEnd => (.ok (some ⟨[], true⟩), r.2.1)
    | .hasMore t => network_pagination (some t) env.net env.st_at_splice
    | .none => network_pagination Option.none env.net env.st_at_splice

/-- Translation of `run_backwards_once`: loop on the internal retry signal
until one attempt produces an outcome or an error; each iteration of the
loop consumes the next attempt environment.  `none` means the supplied
environments were exhausted with every attempt retrying. -/
def run_backwards_once : List AttemptEnv → Option (Except String BackPaginationOutcome)
  | [] => Option.none
  | env :: rest =>
    match (run_backwards_impl env).1 with
    | .error e => some (.error e)
    | .ok (some outcome) => some (.ok outcome)
    | .ok Option.none => run_backwards_once rest

/-- Loop body of `run_backwards_until`, carrying the event accumulator. -/
def run_backwards_until_aux (n : Nat) :
    List AttemptEnv → List Event → Option (Except String BackPaginationOutcome)
  | [], _ => Option.none
  | env :: rest, acc =>
    match (run_backwards_impl env).1 with
    | .error e => some (.error e)
    | .ok Option.none => run_backwards_until_aux n rest acc
    | .ok (some outcome) =>
      let acc2 := acc ++ outcome.events
      if outcome.reached_start || decide (n ≤ acc2.length) then
        some (.ok ⟨acc2, outcome.reached_start⟩)
      else run_backwards_until_aux n rest acc2

/-- Translation of `run_backwards_until`: accumulate the events of repeated
single attempts until one attempt reports reached-start or the accumulator
holds at least `n` events. -/
def run_backwards_until (n : Nat) (envs : List AttemptEnv) :
    Option (Except String BackPaginationOutcome) :=
  run_backwards_until_aux n envs []

/-- The events contributed by one attempt environment to the accumulator of
`run_backwards_until` (empty for errors and retries). -/
def attempt_events (env : AttemptEnv) : List Event :=
  match (run_backwards_impl env).1 with
  | .ok (some o) => o.events
  | _ => []
-- ===================================================================
-- Helper lemmas
-- ===================================================================

/-- Helper: `findSome?` skips a prefix on which the function yields nothing. -/
theorem findSome?_append_none {α β : Type} (f : α → Option β) :
    ∀ (l1 l2 : List α), (∀ x ∈ l1, f x = Option.none) →
      (l1 ++ l2).findSome? f = l2.findSome? f := by
  intro l1
  induction l1 with
  | nil => intro l2 _; rfl
  | cons a l ih =>
    intro l2 h
    have ha : f a = Option.none := h a (List.mem_cons_self a l)
    rw [List.cons_append, List.findSome?_cons, ha]
    exact ih l2 fun x hx => h x (List.mem_cons_of_mem a hx)

/-- Helper: a chunk that is not a gap contributes nothing to `get_latest`. -/
theorem token_of_chunk_eq_none (c : Chunk) (h : c.is_gap = false) :
    (match c.content with
     | .gap g => some g.prev_token
     | .items _ => Option.none) = (Option.none : Option Token) := by
  unfold Chunk.is_gap at h
  cases hcon : c.content with
  | items es => simp
  | gap g => rw [hcon] at h; cases h

/-- Helper: when no chunk is a gap, `get_latest` finds no token. -/
theorem get_latest_eq_none_of_no_gap (ev : RoomEvents)
    (h : ∀ c ∈ ev.chunks, c.is_gap = false) : get_latest ev = Option.none := by
  unfold get_latest RoomEvents.rchunks
  have : ∀ c ∈ ev.chunks.reverse,
      (match c.content with
       | .gap g => some g.prev_token
       | .items _ => Option.none) = (Option.none : Option Token) := by
    intro c hc
    exact token_of_chunk_eq_none c (h c (List.mem_reverse.mp hc))
  calc ev.chunks.reverse.findSome? _
      = (ev.chunks.reverse ++ []).findSome? _ := by rw [List.append_nil]
    _ = ([] : List Chunk).findSome? _ := findSome?_append_none _ _ [] this
    _ = Option.none := rfl

/-- Helper: when the newest-to-oldest walk meets only non-gap chunks before a
gap carrying token `t`, `get_latest` yields `t`. -/
theorem get_latest_eq_some_of_split (ev : RoomEvents) (newer : List Chunk) (c : Chunk)
    (older : List Chunk) (t : Token)
    (hsplit : ev.chunks.reverse = newer ++ c :: older)
    (hnewer : ∀ c2 ∈ newer, c2.is_gap = false)
    (hc : c.content = .gap ⟨t⟩) :
    get_latest ev = some t := by
  unfold get_latest RoomEvents.rchunks
  rw [hsplit,
    findSome?_append_none _ newer _ (fun x hx => token_of_chunk_eq_none x (hnewer x hx)),
    List.findSome?_cons, hc]

-- ===================================================================
-- C2 — token acquisition fast paths
-- ===================================================================

/-- C2: for every room state, `get_or_wait_for_token` returns without
waiting (and without touching the state): `HasMore(t)` with `t` the token
of the first Gap met walking chunks newest to oldest, whenever a Gap
exists; `HitEnd` whenever no Gap exists but at least one event does; and
`None` whenever no Gap and no events exist and
`waited_for_initial_prev_token` is already true. -/
theorem claim_C2_token_acquisition (st : RoomState) (wait_time : Option Nat)
    (st_after : RoomState) :
    (∀ newer c older t, st.events.chunks.reverse = newer ++ c :: older →
      (∀ c2 ∈ newer, c2.is_gap = false) → c.content = .gap ⟨t⟩ →
      get_or_wait_for_token st wait_time st_after = (.hasMore t, st, false)) ∧
    ((∀ c ∈ st.events.chunks, c.is_gap = false) → st.events.has_events = true →
      get_or_wait_for_token st wait_time st_after = (.hitEnd, st, false)) ∧
    ((∀ c ∈ st.events.chunks, c.is_gap = false) → st.events.has_events = false →
      st.waited_for_initial_prev_token = true →
      get_or_wait_for_token st wait_time st_after = (.none, st, false)) := by
  refine ⟨?_, ?_, ?_⟩
  · intro newer c older t hsplit hnewer hc
    have hlat := get_latest_eq_some_of_split st.events newer c older t hsplit hnewer hc
    simp [get_or_wait_for_token, hlat]
  · intro hnogap hev
    have hlat := get_latest_eq_none_of_no_gap st.events hnogap
    simp [get_or_wait_for_token, hlat, hev]
  · intro hnogap hev hflag
    have hlat := get_latest_eq_none_of_no_gap st.events hnogap
    simp [get_or_wait_for_token, hlat, hev, hflag]

/-- Witness for C2 at a concrete room: one gap below one event yields
`HasMore`, gap-less states yield `HitEnd` / `None`. -/
theorem claim_C2_token_acquisition_witness :
    (get_or_wait_for_token
        ⟨⟨[⟨0, .gap ⟨"t"⟩⟩, ⟨1, .items [⟨some "$a", 1⟩]⟩], 2, false⟩, false⟩
        Option.none ⟨⟨[], 0, false⟩, false⟩
      = (.hasMore "t", ⟨⟨[⟨0, .gap ⟨"t"⟩⟩, ⟨1, .items [⟨some "$a", 1⟩]⟩], 2, false⟩, false⟩, false)) ∧
    (get_or_wait_for_token ⟨⟨[⟨1, .items [⟨some "$a", 1⟩]⟩], 2, false⟩, false⟩
        Option.none ⟨⟨[], 0, false⟩, false⟩
      = (.hitEnd, ⟨⟨[⟨1, .items [⟨some "$a", 1⟩]⟩], 2, false⟩, false⟩, false)) ∧
    (get_or_wait_for_token ⟨⟨[], 0, false⟩, true⟩ Option.none ⟨⟨[], 0, false⟩, false⟩
      = (.none, ⟨⟨[], 0, false⟩, true⟩, false)) :=
  ⟨(claim_C2_token_acquisition _ _ _).1 [⟨1, .items [⟨some "$a", 1⟩]⟩] ⟨0, .gap ⟨"t"⟩⟩ [] "t"
      (by decide) (by decide) (by decide),
   (claim_C2_token_acquisition _ _ _).2.1 (by decide) (by decide),
   (claim_C2_token_acquisition _ _ _).2.2 (by decide) (by decide) (by decide)⟩

-- ===================================================================
-- C10 — no-wait calls never mutate the room state
-- ===================================================================

/-- C10: calling `get_or_wait_for_token` with no wait time never mutates
the room state and never waits; on a gap-less, event-less room it returns
`None` (whatever the flag), so no-wait calls never consume the one-shot
initial wait; and the flag can only change on a call that supplied a wait
time and actually fell through to the wait path. -/
theorem claim_C10_no_wait_frame (st st_after : RoomState) :
    (get_or_wait_for_token st Option.none st_after).2.1 = st ∧
    (get_or_wait_for_token st Option.none st_after).2.2 = false ∧
    ((∀ c ∈ st.events.chunks, c.is_gap = false) → st.events.has_events = false →
      (get_or_wait_for_token st Option.none st_after).1 = .none) ∧
    (∀ (w : Option Nat) (stA : RoomState),
      ((get_or_wait_for_token st w stA).2.1).waited_for_initial_prev_token
          ≠ st.waited_for_initial_prev_token →
      w.isSome = true ∧ get_latest st.events = Option.none ∧
        st.events.has_events = false ∧ st.waited_for_initial_prev_token = false ∧
        (get_or_wait_for_token st w stA).2.2 = true) := by
  refine ⟨?_, ?_, ?_, ?_⟩
  · cases hl : get_latest st.events with
    | some t => simp [get_or_wait_for_token, hl]
    | none =>
      cases hev : st.events.has_events with
      | true => simp [get_or_wait_for_token, hl, hev]
      | false =>
        cases hflag : st.waited_for_initial_prev_token with
        | true => simp [get_or_wait_for_token, hl, hev, hflag]
        | false => simp [get_or_wait_for_token, hl, hev, hflag]
  · cases hl : get_latest st.events with
    | some t => simp [get_or_wait_for_token, hl]
    | none =>
      cases hev : st.events.has_events with
      | true => simp [get_or_wait_for_token, hl, hev]
      | false =>
        cases hflag : st.waited_for_initial_prev_token with
        | true => simp [get_or_wait_for_token, hl, hev, hflag]
        | false => simp [get_or_wait_for_token, hl, hev, hflag]
  · intro hnogap hev
    have hl := get_latest_eq_none_of_no_gap st.events hnogap
    cases hflag : st.waited_for_initial_prev_token with
    | true => simp [get_or_wait_for_token, hl, hev, hflag]
    | false => simp [get_or_wait_for_token, hl, hev, hflag]
  · intro w stA hne
    cases hl : get_latest st.events with
    | some t => rw [show get_or_wait_for_token st w stA = (.hasMore t, st, false) by
        simp [get_or_wait_for_token, hl]] at hne; exact absurd rfl hne
    | none =>
      cases hev : st.events.has_events with
      | true => rw [show get_or_wait_for_token st w stA = (.hitEnd, st, false) by
          simp [get_or_wait_for_token, hl, hev]] at hne; exact absurd rfl hne
      | false =>
        cases hflag : st.waited_for_initial_prev_token with
        | true => rw [show get_or_wait_for_token st w stA = (.none, st, false) by
            simp [get_or_wait_for_token, hl, hev, hflag]] at hne; exact absurd rfl hne
        | false =>
          cases w with
          | none => rw [show get_or_wait_for_token st Option.none stA = (.none, st, false) by
              simp [get_or_wait_for_token, hl, hev, hflag]] at hne; exact absurd rfl hne
          | some d =>
            refine ⟨rfl, rfl, rfl, rfl, ?_⟩
            simp [get_or_wait_for_token, hl, hev, hflag]

/-- Witness for C10 at a concrete empty room with a concrete concurrent
state: the no-wait call leaves the state untouched and returns `None`,
while a call with a wait time that fell through did set the flag. -/
theorem claim_C10_no_wait_frame_witness :
    ((get_or_wait_for_token ⟨⟨[], 0, false⟩, false⟩ Option.none
        ⟨⟨[⟨0, .gap ⟨"t"⟩⟩], 1, false⟩, false⟩).2.1 = ⟨⟨[], 0, false⟩, false⟩) ∧
    ((get_or_wait_for_token ⟨⟨[], 0, false⟩, false⟩ Option.none
        ⟨⟨[⟨0, .gap ⟨"t"⟩⟩], 1, false⟩, false⟩).1 = .none) ∧
    ((some 5 : Option Nat).isSome = true ∧
      get_latest (⟨[], 0, false⟩ : RoomEvents) = Option.none ∧
      (⟨[], 0, false⟩ : RoomEvents).has_events = false ∧ false = false ∧
      (get_or_wait_for_token ⟨⟨[], 0, false⟩, false⟩ (some 5)
        ⟨⟨[], 0, false⟩, false⟩).2.2 = true) :=
  ⟨(claim_C10_no_wait_frame ⟨⟨[], 0, false⟩, false⟩ ⟨⟨[⟨0, .gap ⟨"t"⟩⟩], 1, false⟩, false⟩).1,
   (claim_C10_no_wait_frame ⟨⟨[], 0, false⟩, false⟩ ⟨⟨[⟨0, .gap ⟨"t"⟩⟩], 1, false⟩, false⟩).2.2.1
      (by decide) (by decide),
   (claim_C10_no_wait_frame ⟨⟨[], 0, false⟩, false⟩ ⟨⟨[⟨0, .gap ⟨"t"⟩⟩], 1, false⟩, false⟩).2.2.2
      (some 5) ⟨⟨[], 0, false⟩, false⟩ (by decide)⟩

-- ===================================================================
-- C6 — the one-shot wait flag
-- ===================================================================

/-- Concrete empty room used to refute C6 as stated. -/
def c6_room : RoomState := ⟨⟨[], 0, false⟩, false⟩

/-- Concrete state observed after the wait in the C6 counterexample: sync
delivered a gap (hence a token) while the lock was released. -/
def c6_room_after : RoomState := ⟨⟨[⟨0, .gap ⟨"t"⟩⟩], 1, false⟩, false⟩

/-- C6 as stated is false: a wait that does receive a sync-delivered token
still flips `waited_for_initial_prev_token` to true — the flag is set
unconditionally after the wait, not only when the wait failed. -/
theorem claim_C6_counterexample :
    (get_or_wait_for_token c6_room (some 600) c6_room_after).1 = .hasMore "t" ∧
    (get_or_wait_for_token c6_room (some 600) c6_room_after).2.2 = true ∧
    ((get_or_wait_for_token c6_room (some 600) c6_room_after).2.1).waited_for_initial_prev_token
      = true := by decide

/-- C6 (amended): `waited_for_initial_prev_token` is flipped to true by
every call that falls through to the wait path (room with no gap, no
events, flag still false, wait time supplied) — whether or not the wait
received a token — and once true it prevents any further waiting: every
later call on an empty, gap-less room returns `None` immediately without
waiting, so at most one initial wait happens per room lifetime. -/
theorem claim_C6_one_shot_wait_flag (st stA : RoomState) (w : Nat) :
    (get_latest st.events = Option.none → st.events.has_events = false →
      st.waited_for_initial_prev_token = false →
      ((get_or_wait_for_token st (some w) stA).2.1).waited_for_initial_prev_token = true ∧
      (get_or_wait_for_token st (some w) stA).2.2 = true) ∧
    (get_latest st.events = Option.none → st.events.has_events = false →
      st.waited_for_initial_prev_token = true →
      get_or_wait_for_token st (some w) stA = (.none, st, false)) := by
  constructor
  · intro hl hev hflag
    constructor <;> simp [get_or_wait_for_token, hl, hev, hflag]
  · intro hl hev hflag
    simp [get_or_wait_for_token, hl, hev, hflag]

/-- Witness for the amended C6: on a concrete empty room the first waiting
call sets the flag; with the flag set, a waiting call returns `None`
without waiting. -/
theorem claim_C6_one_shot_wait_flag_witness :
    (((get_or_wait_for_token c6_room (some 600) c6_room_after).2.1).waited_for_initial_prev_token
        = true ∧
      (get_or_wait_for_token c6_room (some 600) c6_room_after).2.2 = true) ∧
    get_or_wait_for_token ⟨⟨[], 0, false⟩, true⟩ (some 600) c6_room_after
      = (.none, ⟨⟨[], 0, false⟩, true⟩, false) :=
  ⟨(claim_C6_one_shot_wait_flag c6_room c6_room_after 600).1 (by decide) (by decide) (by decide),
   (claim_C6_one_shot_wait_flag ⟨⟨[], 0, false⟩, true⟩ c6_room_after 600).2
      (by decide) (by decide) (by decide)⟩

-- ===================================================================
-- Network path: shared characterization
-- ===================================================================

/-- Helper: whenever the network path produces an outcome, the outcome's
events are the kept (deduplicated) events, its reached-start value is the
reconciliation computed on the post-splice structure, and the wait flag is
untouched. -/
theorem network_pagination_ok_some (p : Option Token) (net : PaginatorEnv) (st : RoomState)
    (pr : PaginationResult) (o : BackPaginationOutcome) (st2 : RoomState)
    (hresp : net.response = .ok pr)
    (hrun : network_pagination p net st = (.ok (some o), st2)) :
    o.events = kept_events st.events net.store_ids pr.events ∧
    o.reached_start = reconcile_reached_start st2.events pr.hit_end_of_timeline ∧
    st2.waited_for_initial_prev_token = st.waited_for_initial_prev_token := by
  unfold network_pagination at hrun
  rw [hresp] at hrun
  cases p with
  | none =>
    simp only [Prod.mk.injEq, Except.ok.injEq, Option.some.injEq] at hrun
    obtain ⟨h1, h2⟩ := hrun
    subst h1
    subst h2
    exact ⟨rfl, rfl, rfl⟩
  | some t =>
    dsimp only at hrun
    cases hid : st.events.chunk_identifier (Chunk.is_gap_with_token t) with
    | none =>
      rw [hid] at hrun
      simp at hrun
    | some gid =>
      rw [hid] at hrun
      simp only [Prod.mk.injEq, Except.ok.injEq, Option.some.injEq] at hrun
      obtain ⟨h1, h2⟩ := hrun
      subst h1
      subst h2
      exact ⟨rfl, rfl, rfl⟩

-- ===================================================================
-- C1 — reached-start reconciliation
-- ===================================================================

/-- Concrete room used to refute C1 as stated: a gap below one event, with
the oldest in-memory chunk carrying an unloaded predecessor in the store
(hence not the definitive head). -/
def c1_state : RoomState :=
  ⟨⟨[⟨0, .gap ⟨"t1"⟩⟩, ⟨1, .items [⟨some "$e1", 10⟩]⟩], 2, true⟩, true⟩

/-- Concrete network environment for the C1 counterexample: one fresh event
and the server reporting the end of the timeline. -/
def c1_net : PaginatorEnv :=
  { response := .ok ⟨[⟨some "$e0", 5⟩], true⟩, prev_batch_token := Option.none,
    store_ids := [] }

/-- C1 as stated is false: after this attempt's splice no gap exists and the
network reported `hit_end_of_timeline`, so the claimed formula
`no-gap AND (definitive-head OR network-hit-end)` evaluates to true, but the
attempt returns `reached_start = false` — with chunks present the code uses
the definitive-head test alone and discards the network's flag. -/
theorem claim_C1_counterexample :
    (network_pagination (some "t1") c1_net c1_state).1
        = .ok (some ⟨[⟨some "$e0", 5⟩], false⟩) ∧
    ((!(network_pagination (some "t1") c1_net c1_state).2.events.chunks.any fun c => c.is_gap) &&
      ((network_pagination (some "t1") c1_net c1_state).2.events.oldest_is_definitive_head
        || true)) = true :=
  ⟨rfl, rfl⟩

/-- C1 (amended): at the end of every network-path attempt that produces an
outcome, `reached_start` equals: (no Gap chunk exists anywhere) AND (if the
structure has at least one chunk, the oldest chunk is the definitive head —
the network's `hit_end_of_timeline` is ignored; only when no chunk exists at
all does the network's flag decide). -/
theorem claim_C1_reached_start (p : Option Token) (net : PaginatorEnv) (st : RoomState)
    (pr : PaginationResult) (o : BackPaginationOutcome) (st2 : RoomState)
    (hresp : net.response = .ok pr)
    (hrun : network_pagination p net st = (.ok (some o), st2)) :
    o.reached_start =
      ((!st2.events.chunks.any fun c => c.is_gap) &&
        (match st2.events.chunks.head? with
         | Option.none => pr.hit_end_of_timeline
         | some _ => st2.events.oldest_is_definitive_head)) :=
  (network_pagination_ok_some p net st pr o st2 hresp hrun).2.1

/-- The room state after the C1 counterexample attempt, spelled out. -/
def c1_state2 : RoomState :=
  ⟨⟨[⟨2, .items [⟨some "$e0", 5⟩]⟩, ⟨1, .items [⟨some "$e1", 10⟩]⟩], 3, true⟩, true⟩

/-- Witness for the amended C1 at the concrete counterexample instance. -/
theorem claim_C1_reached_start_witness :
    c1_net.response = .ok ⟨[⟨some "$e0", 5⟩], true⟩ ∧
    network_pagination (some "t1") c1_net c1_state
        = (.ok (some ⟨[⟨some "$e0", 5⟩], false⟩), c1_state2) ∧
    (⟨[⟨some "$e0", 5⟩], false⟩ : BackPaginationOutcome).reached_start =
      ((!c1_state2.events.chunks.any fun c => c.is_gap) &&
        (match c1_state2.events.chunks.head? with
         | Option.none => (true : Bool)
         | some _ => c1_state2.events.oldest_is_definitive_head)) :=
  ⟨rfl, rfl,
   claim_C1_reached_start (some "t1") c1_net c1_state ⟨[⟨some "$e0", 5⟩], true⟩
     ⟨[⟨some "$e0", 5⟩], false⟩ c1_state2 rfl rfl⟩

-- ===================================================================
-- C3 — fully duplicated batch
-- ===================================================================

/-- C3: in a network attempt whose batch is entirely made of already-known
events, with a prior gap located via the used token, the attempt clears the
kept events (the outcome carries no events), removes that gap via
`remove_gap_at` without splicing anything in its place, and discards the
paginator's new previous-batch token: the final structure is exactly the old
one with the gap removed, so no new Gap is stored. -/
theorem claim_C3_all_duplicates (t : Token) (net : PaginatorEnv) (st : RoomState)
    (pr : PaginationResult) (gid : Nat)
    (hresp : net.response = .ok pr)
    (hgid : st.events.chunk_identifier (Chunk.is_gap_with_token t) = some gid)
    (hdup : (collect_valid_and_duplicated_events st.events net.store_ids pr.events).2 = true) :
    network_pagination (some t) net st =
      (.ok (some ⟨[], reconcile_reached_start (st.events.remove_gap_at gid).1
          pr.hit_end_of_timeline⟩),
       { st with events := (st.events.remove_gap_at gid).1 }) := by
  unfold network_pagination
  rw [hresp]
  dsimp only
  rw [hgid]
  dsimp only
  unfold kept_events splice_events maybe_insert_new_gap
  rw [hdup]
  simp [hdup]

/-- Room state of the C3 witness: a gap under one event. -/
def c3_state : RoomState :=
  ⟨⟨[⟨0, .gap ⟨"t1"⟩⟩, ⟨1, .items [⟨some "$e1", 10⟩]⟩], 2, true⟩, true⟩

/-- Network environment of the C3 witness: the server hands the already
known event back, together with a new previous-batch token. -/
def c3_net : PaginatorEnv :=
  { response := .ok ⟨[⟨some "$e1", 10⟩], true⟩, prev_batch_token := some "t2",
    store_ids := [] }

/-- Witness for C3: on the concrete fully-duplicated batch the attempt
returns no events, removes the gap, and stores no gap for the new token. -/
theorem claim_C3_all_duplicates_witness :
    network_pagination (some "t1") c3_net c3_state =
      (.ok (some ⟨[], false⟩),
       ⟨⟨[⟨1, .items [⟨some "$e1", 10⟩]⟩], 2, true⟩, true⟩) :=
  claim_C3_all_duplicates "t1" c3_net c3_state ⟨[⟨some "$e1", 10⟩], true⟩ 0
    rfl rfl rfl

-- ===================================================================
-- C4 — reset detection aborts and retries, without mutation
-- ===================================================================

/-- C4: in an attempt that used a continuation token, if no gap carrying
that token exists in the state observed when the writer lock is re-acquired
after the network call, the attempt aborts with the internal retry signal:
no error is surfaced, the room state is returned unchanged, and both outer
loops simply move on to the next attempt. -/
theorem claim_C4_reset_retry (env : AttemptEnv) (rest : List AttemptEnv) (n : Nat)
    (acc : List Event) (t : Token) (pr : PaginationResult)
    (hload : env.load = .gap)
    (htok : (get_or_wait_for_token env.st_at_token (some DEFAULT_WAIT_FOR_TOKEN_DURATION)
        env.st_after_wait).1 = .hasMore t)
    (hresp : env.net.response = .ok pr)
    (hgone : env.st_at_splice.events.chunk_identifier (Chunk.is_gap_with_token t)
        = Option.none) :
    run_backwards_impl env = (.ok Option.none, env.st_at_splice) ∧
    run_backwards_once (env :: rest) = run_backwards_once rest ∧
    run_backwards_until_aux n (env :: rest) acc = run_backwards_until_aux n rest acc := by
  have h1 : run_backwards_impl env = (.ok Option.none, env.st_at_splice) := by
    unfold run_backwards_impl
    rw [hload]
    dsimp only
    rw [htok]
    dsimp only
    unfold network_pagination
    rw [hresp]
    dsimp only
    rw [hgone]
  refine ⟨h1, ?_, ?_⟩
  · conv_lhs => rw [run_backwards_once]
    rw [h1]
  · conv_lhs => rw [run_backwards_until_aux]
    rw [h1]

/-- Attempt environment of the C4 witness: a gap-bearing token state at
token time, but a splice-time state in which the gap is gone. -/
def c4_env : AttemptEnv :=
  { load := .gap,
    st_after_load := ⟨⟨[⟨0, .gap ⟨"t1"⟩⟩], 1, false⟩, true⟩,
    st_at_token := ⟨⟨[⟨0, .gap ⟨"t1"⟩⟩], 1, false⟩, true⟩,
    st_after_wait := ⟨⟨[], 0, false⟩, true⟩,
    net := { response := .ok ⟨[⟨some "$e0", 5⟩], false⟩, prev_batch_token := some "t0",
             store_ids := [] },
    st_at_splice := ⟨⟨[], 0, false⟩, true⟩ }

/-- Witness for C4 at the concrete reset scenario. -/
theorem claim_C4_reset_retry_witness :
    run_backwards_impl c4_env = (.ok Option.none, c4_env.st_at_splice) ∧
    run_backwards_once [c4_env] = run_backwards_once [] ∧
    run_backwards_until_aux 7 [c4_env] [] = run_backwards_until_aux 7 [] [] :=
  claim_C4_reset_retry c4_env [] 7 [] "t1" ⟨[⟨some "$e0", 5⟩], false⟩
    rfl rfl rfl rfl

-- ===================================================================
-- C9 — transport errors are surfaced unchanged, without retry or mutation
-- ===================================================================

/-- C9: when the paginator fails with a transport error, the attempt
propagates that exact error before touching the room state (the state it
returns is the untouched splice-time snapshot), and `run_backwards_once` /
`run_backwards_until` surface it to the caller at once, consuming no
further attempts. -/
theorem claim_C9_transport_error (env : AttemptEnv) (rest : List AttemptEnv) (n : Nat)
    (acc : List Event) (e : String)
    (hload : env.load = .gap)
    (hresp : env.net.response = .error e)
    (htok : (get_or_wait_for_token env.st_at_token (some DEFAULT_WAIT_FOR_TOKEN_DURATION)
        env.st_after_wait).1 ≠ .hitEnd) :
    run_backwards_impl env = (.error e, env.st_at_splice) ∧
    run_backwards_once (env :: rest) = some (.error e) ∧
    run_backwards_until_aux n (env :: rest) acc = some (.error e) := by
  have h1 : run_backwards_impl env = (.error e, env.st_at_splice) := by
    unfold run_backwards_impl
    rw [hload]
    dsimp only
    cases htokv : (get_or_wait_for_token env.st_at_token
        (some DEFAULT_WAIT_FOR_TOKEN_DURATION) env.st_after_wait).1 with
    | none =>
      dsimp only
      unfold network_pagination
      rw [hresp]
    | hasMore t =>
      dsimp only
      unfold network_pagination
      rw [hresp]
    | hitEnd => exact absurd htokv htok
  refine ⟨h1, ?_, ?_⟩
  · conv_lhs => rw [run_backwards_once]
    rw [h1]
  · conv_lhs => rw [run_backwards_until_aux]
    rw [h1]

/-- Attempt environment of the C9 witness: a gap whose resolution fails
with a transport error. -/
def c9_env : AttemptEnv :=
  { load := .gap,
    st_after_load := ⟨⟨[⟨0, .gap ⟨"t1"⟩⟩], 1, false⟩, true⟩,
    st_at_token := ⟨⟨[⟨0, .gap ⟨"t1"⟩⟩], 1, false⟩, true⟩,
    st_after_wait := ⟨⟨[], 0, false⟩, true⟩,
    net := { response := .error "connection reset", prev_batch_token := Option.none,
             store_ids := [] },
    st_at_splice := ⟨⟨[⟨0, .gap ⟨"t1"⟩⟩], 1, false⟩, true⟩ }

/-- Witness for C9 at a concrete failing attempt. -/
theorem claim_C9_transport_error_witness :
    run_backwards_impl c9_env = (.error "connection reset", c9_env.st_at_splice) ∧
    run_backwards_once [c9_env, c9_env] = some (.error "connection reset") ∧
    run_backwards_until_aux 3 [c9_env, c9_env] [] = some (.error "connection reset") :=
  claim_C9_transport_error c9_env [c9_env] 3 [] "connection reset"
    rfl rfl (by decide)

-- ===================================================================
-- C5 — splice-site selection for a batch with kept events
-- ===================================================================

/-- C5: in a network attempt that keeps at least one non-duplicated event
(the batch was not fully duplicated), the insertion site is chosen as
follows — if the gap matching the used token was located, the kept events
(reversed to chronological order) replace that gap via `replace_gap_at`;
otherwise, if the room already had events, they are inserted immediately
before the first (oldest) existing event; otherwise they are pushed as a
new chunk — and a new Gap carrying the paginator's new previous-batch
token, if any, is then inserted at the position where the inserted events
start, or pushed at the tail when no position was captured. -/
theorem claim_C5_splice_site (p : Option Token) (net : PaginatorEnv) (st : RoomState)
    (pr : PaginationResult)
    (hresp : net.response = .ok pr)
    (hnotdup : (collect_valid_and_duplicated_events st.events net.store_ids pr.events).2
        = false) :
    (∀ t gid, p = some t →
        st.events.chunk_identifier (Chunk.is_gap_with_token t) = some gid →
        network_pagination p net st =
          (let kept := kept_events st.events net.store_ids pr.events
           let spliced := st.events.replace_gap_at kept.reverse gid
           let ev2 := maybe_insert_new_gap false (net.prev_batch_token.map Gap.mk)
             spliced.2 spliced.1
           (.ok (some ⟨kept, reconcile_reached_start ev2 pr.hit_end_of_timeline⟩),
            { st with events := ev2 }))) ∧
    (∀ pos, p = Option.none → st.events.first_event_pos = some pos →
        network_pagination p net st =
          (let kept := kept_events st.events net.store_ids pr.events
           let ev1 := st.events.insert_events_at kept.reverse pos
           let ev2 := maybe_insert_new_gap false (net.prev_batch_token.map Gap.mk)
             (some pos) ev1
           (.ok (some ⟨kept, reconcile_reached_start ev2 pr.hit_end_of_timeline⟩),
            { st with events := ev2 }))) ∧
    (p = Option.none → st.events.first_event_pos = Option.none →
        network_pagination p net st =
          (let kept := kept_events st.events net.store_ids pr.events
           let ev1 := st.events.push_events kept.reverse
           let ev2 := maybe_insert_new_gap false (net.prev_batch_token.map Gap.mk)
             ev1.first_event_pos ev1
           (.ok (some ⟨kept, reconcile_reached_start ev2 pr.hit_end_of_timeline⟩),
            { st with events := ev2 }))) := by
  refine ⟨?_, ?_, ?_⟩
  · intro t gid hp hgid
    subst hp
    unfold network_pagination
    rw [hresp]
    dsimp only
    rw [hgid]
    dsimp only
    unfold splice_events
    rw [hnotdup]
    simp
  · intro pos hp hfep
    subst hp
    unfold network_pagination
    rw [hresp]
    dsimp only
    unfold splice_events
    rw [hnotdup, hfep]
  · intro hp hfep
    subst hp
    unfold network_pagination
    rw [hresp]
    dsimp only
    unfold splice_events
    rw [hnotdup, hfep]

/-- Room of the C5 witness, branch with a located gap. -/
def c5_state : RoomState :=
  ⟨⟨[⟨0, .gap ⟨"t1"⟩⟩, ⟨1, .items [⟨some "$e1", 10⟩]⟩], 2, false⟩, true⟩

/-- Room of the C5 witness, branch with prior events and no token. -/
def c5_items : RoomState := ⟨⟨[⟨1, .items [⟨some "$e1", 10⟩]⟩], 2, false⟩, true⟩

/-- Room of the C5 witness, branch with no prior events and no token. -/
def c5_empty : RoomState := ⟨⟨[], 0, false⟩, true⟩

/-- Network environment of the C5 witness: one fresh event and a new
previous-batch token. -/
def c5_net : PaginatorEnv :=
  { response := .ok ⟨[⟨some "$e0", 5⟩], false⟩, prev_batch_token := some "t0",
    store_ids := [] }

/-- Witness for C5: the three concrete splice sites — gap replaced with the
new gap inserted before the new events; events prepended before the oldest
event; events pushed as a fresh chunk — spelled out. -/
theorem claim_C5_splice_site_witness :
    network_pagination (some "t1") c5_net c5_state =
      (.ok (some ⟨[⟨some "$e0", 5⟩], false⟩),
       ⟨⟨[⟨3, .gap ⟨"t0"⟩⟩, ⟨2, .items [⟨some "$e0", 5⟩]⟩,
          ⟨1, .items [⟨some "$e1", 10⟩]⟩], 4, false⟩, true⟩) ∧
    network_pagination Option.none c5_net c5_items =
      (.ok (some ⟨[⟨some "$e0", 5⟩], false⟩),
       ⟨⟨[⟨2, .gap ⟨"t0"⟩⟩,
          ⟨1, .items [⟨some "$e0", 5⟩, ⟨some "$e1", 10⟩]⟩], 3, false⟩, true⟩) ∧
    network_pagination Option.none c5_net c5_empty =
      (.ok (some ⟨[⟨some "$e0", 5⟩], false⟩),
       ⟨⟨[⟨1, .gap ⟨"t0"⟩⟩, ⟨0, .items [⟨some "$e0", 5⟩]⟩], 2, false⟩, true⟩) :=
  ⟨(claim_C5_splice_site (some "t1") c5_net c5_state ⟨[⟨some "$e0", 5⟩], false⟩
      rfl rfl).1 "t1" 0 rfl rfl,
   (claim_C5_splice_site Option.none c5_net c5_items ⟨[⟨some "$e0", 5⟩], false⟩
      rfl rfl).2.1 ⟨1, 0⟩ rfl rfl,
   (claim_C5_splice_site Option.none c5_net c5_empty ⟨[⟨some "$e0", 5⟩], false⟩
      rfl rfl).2.2 rfl rfl⟩

-- ===================================================================
-- C8 — outcomes are newest-first
-- ===================================================================

/-- Helper: the kept events of an attempt form a sublist of the network
batch (filtering drops duplicates but never reorders). -/
theorem kept_events_sublist (ev : RoomEvents) (ids : List EventId) (batch : List Event) :
    List.Sublist (kept_events ev ids batch) batch := by
  unfold kept_events collect_valid_and_duplicated_events
  dsimp only
  split
  · exact (List.filter_sublist _).trans (List.filter_sublist _)
  · exact List.nil_sublist _

/-- C8: every produced `BackPaginationOutcome` is newest-first — the local
fast path returns the store's oldest-first events reversed, and on a gap
attempt the outcome's events are drawn from the network batch in order, so
whenever the batch is strictly decreasing in origin-server timestamp, so is
the outcome. -/
theorem claim_C8_newest_first (env : AttemptEnv) :
    (∀ evs r, env.load = .events evs r →
        (run_backwards_impl env).1 = .ok (some ⟨evs.reverse, r⟩)) ∧
    (∀ pr o, env.load = .gap → env.net.response = .ok pr →
        (run_backwards_impl env).1 = .ok (some o) →
        pr.events.Pairwise (fun a b => b.origin_server_ts < a.origin_server_ts) →
        o.events.Pairwise (fun a b => b.origin_server_ts < a.origin_server_ts)) := by
  constructor
  · intro evs r hload
    unfold run_backwards_impl
    rw [hload]
  · intro pr o hload hresp hrun hpair
    unfold run_backwards_impl at hrun
    rw [hload] at hrun
    dsimp only at hrun
    cases htokv : (get_or_wait_for_token env.st_at_token
        (some DEFAULT_WAIT_FOR_TOKEN_DURATION) env.st_after_wait).1 with
    | hitEnd =>
      rw [htokv] at hrun
      dsimp only at hrun
      simp only [Except.ok.injEq, Option.some.injEq] at hrun
      rw [← hrun]
      exact List.Pairwise.nil
    | hasMore t =>
      rw [htokv] at hrun
      dsimp only at hrun
      have hfull : network_pagination (some t) env.net env.st_at_splice
          = (.ok (some o), (network_pagination (some t) env.net env.st_at_splice).2) := by
        rw [← hrun]
      have hspec := network_pagination_ok_some (some t) env.net env.st_at_splice pr o
        (network_pagination (some t) env.net env.st_at_splice).2 hresp hfull
      rw [hspec.1]
      exact List.Pairwise.sublist (kept_events_sublist _ _ _) hpair
    | none =>
      rw [htokv] at hrun
      dsimp only at hrun
      have hfull : network_pagination Option.none env.net env.st_at_splice
          = (.ok (some o), (network_pagination Option.none env.net env.st_at_splice).2) := by
        rw [← hrun]
      have hspec := network_pagination_ok_some Option.none env.net env.st_at_splice pr o
        (network_pagination Option.none env.net env.st_at_splice).2 hresp hfull
      rw [hspec.1]
      exact List.Pairwise.sublist (kept_events_sublist _ _ _) hpair

/-- Attempt environment exercising the fast path of the C8 witness. -/
def c8_local_env : AttemptEnv :=
  { load := .events [⟨some "$a", 1⟩, ⟨some "$b", 2⟩] false,
    st_after_load := ⟨⟨[], 0, false⟩, true⟩,
    st_at_token := ⟨⟨[], 0, false⟩, true⟩,
    st_after_wait := ⟨⟨[], 0, false⟩, true⟩,
    net := { response := .ok ⟨[], false⟩, prev_batch_token := Option.none, store_ids := [] },
    st_at_splice := ⟨⟨[], 0, false⟩, true⟩ }

/-- Attempt environment exercising the network path of the C8 witness. -/
def c8_net_env : AttemptEnv :=
  { load := .gap,
    st_after_load := ⟨⟨[⟨0, .gap ⟨"t1"⟩⟩], 1, false⟩, true⟩,
    st_at_token := ⟨⟨[⟨0, .gap ⟨"t1"⟩⟩], 1, false⟩, true⟩,
    st_after_wait := ⟨⟨[], 0, false⟩, true⟩,
    net := { response := .ok ⟨[⟨some "$e1", 10⟩, ⟨some "$e0", 5⟩], false⟩,
             prev_batch_token := Option.none, store_ids := [] },
    st_at_splice := ⟨⟨[⟨0, .gap ⟨"t1"⟩⟩], 1, false⟩, true⟩ }

/-- Witness for C8: the fast path reverses a concrete store batch, and a
concrete strictly-decreasing network batch yields a strictly-decreasing
outcome. -/
theorem claim_C8_newest_first_witness :
    (run_backwards_impl c8_local_env).1
        = .ok (some ⟨[⟨some "$b", 2⟩, ⟨some "$a", 1⟩], false⟩) ∧
    ([⟨some "$e1", 10⟩, ⟨some "$e0", 5⟩] : List Event).Pairwise
        (fun a b => b.origin_server_ts < a.origin_server_ts) ∧
    (⟨[⟨some "$e1", 10⟩, ⟨some "$e0", 5⟩], true⟩ : BackPaginationOutcome).events.Pairwise
        (fun a b => b.origin_server_ts < a.origin_server_ts) :=
  ⟨(claim_C8_newest_first c8_local_env).1 [⟨some "$a", 1⟩, ⟨some "$b", 2⟩] false rfl,
   by decide,
   (claim_C8_newest_first c8_net_env).2 ⟨[⟨some "$e1", 10⟩, ⟨some "$e0", 5⟩], false⟩
     ⟨[⟨some "$e1", 10⟩, ⟨some "$e0", 5⟩], true⟩ rfl rfl rfl (by decide)⟩

-- ===================================================================
-- C7 — the run-until accumulation loop
-- ===================================================================

/-- Helper: characterization of the accumulation loop of
`run_backwards_until`, generalized over the accumulator.  When the loop
returns an outcome, the consumed attempts split as `used ++ [env2]`, the
outcome carries the accumulator extended by every consumed attempt's
events and the last attempt's reached-start value, the stop condition
holds at the end, and no earlier successful attempt satisfied it. -/
theorem run_backwards_until_aux_ok (n : Nat) :
    ∀ (envs : List AttemptEnv) (acc : List Event) (o : BackPaginationOutcome),
      run_backwards_until_aux n envs acc = some (.ok o) →
      (o.reached_start = true ∨ n ≤ o.events.length) ∧
      ∃ used env2 rest o2,
        envs = used ++ env2 :: rest ∧
        (run_backwards_impl env2).1 = .ok (some o2) ∧
        o.reached_start = o2.reached_start ∧
        o.events = acc ++ (used ++ [env2]).flatMap attempt_events ∧
        (∀ i (hi : i < used.length) oi,
          (run_backwards_impl (used.get ⟨i, hi⟩)).1 = .ok (some oi) →
          oi.reached_start = false ∧
          (acc ++ (used.take (i + 1)).flatMap attempt_events).length < n) := by
  intro envs
  induction envs with
  | nil =>
    intro acc o h
    exact absurd h (by simp [run_backwards_until_aux])
  | cons env rest ih =>
    intro acc o h
    rw [run_backwards_until_aux] at h
    cases hres : (run_backwards_impl env).1 with
    | error e =>
      rw [hres] at h
      simp at h
    | ok oo =>
      cases oo with
      | none =>
        rw [hres] at h
        dsimp only at h
        obtain ⟨hc, used, env2, rest2, o2, hsplit, himpl, hrs, hev, hmin⟩ := ih acc o h
        have hae : attempt_events env = [] := by unfold attempt_events; rw [hres]
        refine ⟨hc, env :: used, env2, rest2, o2, by simp [hsplit], himpl, hrs, ?_, ?_⟩
        · simpa [hae] using hev
        · intro i hi oi hoi
          cases i with
          | zero =>
            have hoi2 : (run_backwards_impl env).1 = Except.ok (some oi) := hoi
            rw [hres] at hoi2
            exact absurd hoi2 (by simp)
          | succ j =>
            have hj : j < used.length := by simpa using hi
            have hstep := hmin j hj oi (by exact hoi)
            refine ⟨hstep.1, ?_⟩
            simpa [hae] using hstep.2
      | some o1 =>
        rw [hres] at h
        dsimp only at h
        have hae : attempt_events env = o1.events := by unfold attempt_events; rw [hres]
        by_cases hstop : (o1.reached_start || decide (n ≤ (acc ++ o1.events).length)) = true
        · rw [if_pos hstop] at h
          simp only [Option.some.injEq, Except.ok.injEq] at h
          subst h
          constructor
          · cases Bool.or_eq_true_iff.mp hstop with
            | inl h1 => exact Or.inl h1
            | inr h2 => exact Or.inr (of_decide_eq_true h2)
          · refine ⟨[], env, rest, o1, rfl, hres, rfl, ?_, ?_⟩
            · simp [hae]
            · intro i hi oi
              exact absurd hi (Nat.not_lt_zero i)
        · rw [if_neg hstop] at h
          obtain ⟨hc, used, env2, rest2, o2, hsplit, himpl, hrs, hev, hmin⟩ :=
            ih (acc ++ o1.events) o h
          have hnostop : o1.reached_start = false ∧ (acc ++ o1.events).length < n := by
            rcases Bool.or_eq_false_iff.mp (Bool.not_eq_true _ |>.mp hstop) with ⟨h1, h2⟩
            exact ⟨h1, Nat.lt_of_not_le (of_decide_eq_false h2)⟩
          refine ⟨hc, env :: used, env2, rest2, o2, by simp [hsplit], himpl, hrs, ?_, ?_⟩
          · simpa [hae, List.append_assoc] using hev
          · intro i hi oi hoi
            cases i with
            | zero =>
              have hoi2 : (run_backwards_impl env).1 = Except.ok (some oi) := hoi
              rw [hres] at hoi2
              simp only [Except.ok.injEq, Option.some.injEq] at hoi2
              subst hoi2
              refine ⟨hnostop.1, ?_⟩
              simpa [hae] using hnostop.2
            | succ j =>
              have hj : j < used.length := by simpa using hi
              have hstep := hmin j hj oi (by exact hoi)
              refine ⟨hstep.1, ?_⟩
              have hlen := hstep.2
              simp only [List.length_append] at hlen ⊢
              simp only [List.take_succ_cons, List.flatMap_cons, hae, List.length_append]
              omega

/-- C7: whenever `run_backwards_until n` returns an outcome, the loop has
consumed a sequence of attempts ending in a successful one; the outcome
accumulates the events of every consumed attempt and carries the last
attempt's reached-start value; the loop stopped exactly when an attempt
reported reached-start or the accumulated count first reached `n` — at the
end the stop condition holds, and it held at no earlier successful
attempt. -/
theorem claim_C7_until_loop (n : Nat) (envs : List AttemptEnv) (o : BackPaginationOutcome)
    (h : run_backwards_until n envs = some (.ok o)) :
    (o.reached_start = true ∨ n ≤ o.events.length) ∧
    ∃ used env2 rest o2,
      envs = used ++ env2 :: rest ∧
      (run_backwards_impl env2).1 = .ok (some o2) ∧
      o.reached_start = o2.reached_start ∧
      o.events = (used ++ [env2]).flatMap attempt_events ∧
      (∀ i (hi : i < used.length) oi,
        (run_backwards_impl (used.get ⟨i, hi⟩)).1 = .ok (some oi) →
        oi.reached_start = false ∧
        ((used.take (i + 1)).flatMap attempt_events).length < n) := by
  have hs := run_backwards_until_aux_ok n envs [] o h
  simpa using hs

/-- Attempt environment of the C7 witness: one fast-path attempt that hits
the start of the timeline. -/
def c7_env : AttemptEnv :=
  { load := .events [⟨some "$a", 1⟩] true,
    st_after_load := ⟨⟨[], 0, false⟩, false⟩,
    st_at_token := ⟨⟨[], 0, false⟩, false⟩,
    st_after_wait := ⟨⟨[], 0, false⟩, false⟩,
    net := { response := .ok ⟨[], false⟩, prev_batch_token := Option.none, store_ids := [] },
    st_at_splice := ⟨⟨[], 0, false⟩, false⟩ }

/-- Witness for C7 on a concrete one-attempt run that stops because the
attempt reported reached-start. -/
theorem claim_C7_until_loop_witness :
    ((⟨[⟨some "$a", 1⟩], true⟩ : BackPaginationOutcome).reached_start = true ∨
      5 ≤ (⟨[⟨some "$a", 1⟩], true⟩ : BackPaginationOutcome).events.length) ∧
    ∃ used env2 rest o2,
      [c7_env] = used ++ env2 :: rest ∧
      (run_backwards_impl env2).1 = .ok (some o2) ∧
      (⟨[⟨some "$a", 1⟩], true⟩ : BackPaginationOutcome).reached_start = o2.reached_start ∧
      (⟨[⟨some "$a", 1⟩], true⟩ : BackPaginationOutcome).events
          = (used ++ [env2]).flatMap attempt_events ∧
      (∀ i (hi : i < used.length) oi,
        (run_backwards_impl (used.get ⟨i, hi⟩)).1 = .ok (some oi) →
        oi.reached_start = false ∧
        ((used.take (i + 1)).flatMap attempt_events).length < 5) :=
  claim_C7_until_loop 5 [c7_env] ⟨[⟨some "$a", 1⟩], true⟩ rfl
